import Mathlib

/-!
Shallow embedding of the offline-tierlist editor (the browser script of the
davardanian/offline-tierlist repository) and of its two Node batch utilities
(util/remove_duplicates.js and util/add_restaurant.js).

Conventions used throughout:
- JavaScript arrays and ordered DOM child lists become Lean lists.
- JS strings become Lean String values (a list of characters; the JS length
  counts UTF-16 code units, here characters; the two agree on every input
  considered in this development).
- Each definition carries a comment naming the source function it embeds.
-/

namespace Tierlist

/-- JS String.prototype.toLowerCase, restricted to the ASCII case folding
performed by Char.toLower (the inputs exercised here are ASCII). -/
def jsToLower (s : String) : String := ⟨s.data.map Char.toLower⟩

/-- JS String.prototype.trim: strips leading and trailing whitespace. -/
def jsTrim (s : String) : String :=
  ⟨((s.data.dropWhile Char.isWhitespace).reverse.dropWhile Char.isWhitespace).reverse⟩

/-- JS String.prototype.substr(0, n): the first n characters. -/
def substr0 (s : String) (n : Nat) : String := ⟨s.data.take n⟩

/-- Tests whether the first character list is an initial segment of the second. -/
def startsWith : List Char → List Char → Bool
  | [], _ => true
  | _ :: _, [] => false
  | a :: as, b :: bs => a == b && startsWith as bs

/-- Helper for strIncludes: does the needle occur anywhere in the haystack. -/
def occursIn (needle : List Char) : List Char → Bool
  | [] => startsWith needle []
  | b :: bs => startsWith needle (b :: bs) || occursIn needle bs

/-- JS String.prototype.includes: substring containment. -/
def strIncludes (s sub : String) : Bool := occursIn sub.data s.data

/-- DOM parent.insertBefore(x, children[n]): inserts x at position n among the
children, appending when children[n] is undefined (n past the end). -/
def jsInsert (l : List α) (n : Nat) (a : α) : List α := l.take n ++ [a] ++ l.drop n

/-- An item of the tierlist: one image source plus its display name.  In the
DOM this is a div.item-container holding an img.draggable and a
span.item-label; create_item_with_src_and_name builds exactly this shape, so
every item of a document built by the loader or the importer has both fields. -/
structure Item where
  src : String
  name : String
deriving DecidableEq, Repr

/-- A tier row: header name, header color, and the items of the row in DOM
order (the span.item children of the span.items container). -/
structure Row where
  name : String
  color : String
  imgs : List Item
deriving DecidableEq, Repr

/-- The tierlist document: title, the rows in order, and the untiered pool. -/
structure Document where
  title : String
  rows : List Row
  untiered : List Item
deriving DecidableEq, Repr

/-!
Drag-placement engine: the drop handler installed by make_accept_drop.

At mousedown the handler records the grabbed item and
old_item_index := get_item_index(grabbed container).  At dragenter it records
target_item_index := get_item_index(hovered node).  On drop, the handler
removes the grabbed element from its parent; the variable old_item_row is
assigned only inside the branch taken when that parent is a span.item wrapper
(every tier-row item, and any item that a previous drop has wrapped), and is
left undefined for an item sitting unwrapped in the untiered pool (everything
appended there by import, paste or load).  The handler then applies

  if (items_container.parentNode === old_item_row
      && old_item_index < target_item_index)
    target_item_index = target_item_index - 1;

a guard equivalent to: the grabbed element was span-wrapped and the drop
container is its source container.  Finally it either appends (drop directly
on the row surface) or runs
items_container.insertBefore(td, items_container.children[target_item_index]).
-/

/-- Drop commit when the drop container is the source container: the grabbed
item sits at position srcPos of the container child list; src_wrapped records
whether its parent was a span.item wrapper (the only case in which
old_item_row is assigned, hence in which the guard of the adjustment can
hold); old_item_index and target_item_index are the index variables recorded
by the handler at mousedown and dragenter.  When the grabbed item is not found
the handler is a silent no-op. -/
def drop_commit_same (row : List Item) (srcPos : Nat) (src_wrapped : Bool)
    (old_item_index target_item_index : Nat) (dropped_on_row : Bool) : List Item :=
  match row.get? srcPos with
  | none => row
  | some item =>
      let remaining := row.eraseIdx srcPos
      let t := if src_wrapped ∧ old_item_index < target_item_index
               then target_item_index - 1 else target_item_index
      if dropped_on_row then remaining ++ [item] else jsInsert remaining t item

/-- Drop commit, cross-container case: the guard compares the destination
parent with old_item_row (the source row, or undefined), so it fails whenever
the containers differ and the raw target_item_index is used unchanged for the
insertion into the destination. -/
def drop_commit_cross (src dst : List Item) (srcPos target_item_index : Nat)
    (dropped_on_row : Bool) : List Item × List Item :=
  match src.get? srcPos with
  | none => (src, dst)
  | some item =>
      (src.eraseIdx srcPos,
       if dropped_on_row then dst ++ [item] else jsInsert dst target_item_index item)

/-!
get_item_index over a row.  The function queries
".item-container, .item > img, .item img" on the row div; in a row every item
contributes two matching nodes in document order (its div.item-container, then
the img.draggable inside it), so the node list of an n-item row alternates
container 0, img 0, container 1, img 1, ...  The function returns the first
position in this node list whose node equals, or contains, the supplied
element, so hovering the image, the label (resolved to its container by the
dragenter handler) or the container of the item at row position k yields 2 k.
-/

/-- One of the nodes of a row matched by the get_item_index query: the
container or the image of the item at the given row position. -/
inductive RowNode where
  | container (pos : Nat)
  | img (pos : Nat)
deriving DecidableEq, Repr

/-- The node list returned by the query on an n-item row, in document order. -/
def row_node_list (n : Nat) : List RowNode :=
  ((List.range n).map (fun k => [RowNode.container k, RowNode.img k])).flatten

/-- DOM test used by the get_item_index loop: the candidate node equals the
target, or contains it (a container contains its own image). -/
def node_hits (node target : RowNode) : Bool :=
  node == target ||
    match node, target with
    | .container k, .img j => k == j
    | _, _ => false

/-- get_item_index on a row of n items, for a target node of that row. -/
def get_item_index_row (n : Nat) (target : RowNode) : Option Nat :=
  (row_node_list n).findIdx? (fun nd => node_hits nd target)

/-- Full same-row drag and drop: grab the item at row position srcPos
(mousedown on its image records the index of its container), hover the image
of the item at row position dstPos, and drop there.  Both index variables are
computed by get_item_index exactly as in the source, and the commit is the
drop handler above; a tier-row item is always wrapped in a span.item, so the
wrapper condition of the adjustment guard holds. -/
def drop_within_row (row : List Item) (srcPos dstPos : Nat) : List Item :=
  match get_item_index_row row.length (.container srcPos),
        get_item_index_row row.length (.img dstPos) with
  | some old_item_index, some target_item_index =>
      drop_commit_same row srcPos true old_item_index target_item_index false
  | _, _ => row

/-- Concrete items for the scenarios of the spec. -/
def itA : Item := ⟨"srcA", "A"⟩

def itB : Item := ⟨"srcB", "B"⟩

def itC : Item := ⟨"srcC", "C"⟩

def itD : Item := ⟨"srcD", "D"⟩

/-- C1 counterexample: the decrement does not apply to every same-container
drop.  An item sitting unwrapped in the untiered pool (every item that import,
paste or load appended there) has no span.item parent, so old_item_row is
never assigned and the adjustment guard is false: a same-pool drop of such an
item with old_item_index 0 and target_item_index 1 inserts at the raw index 1,
giving the order B A, not at the decremented index 0 giving A B as the claimed
unconditional decrement would. -/
theorem same_pool_drop_uses_raw_index :
    drop_commit_same [itA, itB] 0 false 0 1 false = [itB, itA]
      ∧ drop_commit_same [itA, itB] 0 false 0 1 false ≠ [itA, itB] := by
  constructor
  · rfl
  · decide

/-- C1 amended: the same-container decrement is additionally guarded by the
grabbed item being wrapped in a span.item (every tier-row item, and only the
pool items that an earlier drop has wrapped): when the grabbed item is
wrapped, the drop container is the source container and the recorded source
index is strictly below the raw recorded target index, the destination index
is decremented by exactly 1 before insertion; when the grabbed item is
unwrapped, the containers differ, or the source index is not strictly
smaller, the raw index is used unchanged. -/
theorem same_container_decrement_requires_wrapped_source
    (row src dst : List Item) (srcPos old tgt j u : Nat) (w : Bool)
    (hs : srcPos < row.length) (hj : j < src.length) :
    (w = true → old < tgt →
      drop_commit_same row srcPos w old tgt false
        = jsInsert (row.eraseIdx srcPos) (tgt - 1) (row.get ⟨srcPos, hs⟩))
    ∧ (w = false →
      drop_commit_same row srcPos w old tgt false
        = jsInsert (row.eraseIdx srcPos) tgt (row.get ⟨srcPos, hs⟩))
    ∧ (tgt ≤ old →
      drop_commit_same row srcPos w old tgt false
        = jsInsert (row.eraseIdx srcPos) tgt (row.get ⟨srcPos, hs⟩))
    ∧ drop_commit_cross src dst j u false
        = (src.eraseIdx j, jsInsert dst u (src.get ⟨j, hj⟩)) := by
  refine ⟨fun hw h => ?_, fun hw => ?_, fun h => ?_, ?_⟩
  · subst hw
    simp [drop_commit_same, List.getElem?_eq_getElem hs, h]
  · subst hw
    simp [drop_commit_same, List.getElem?_eq_getElem hs]
  · simp [drop_commit_same, List.getElem?_eq_getElem hs, Nat.not_lt.mpr h]
  · simp [drop_commit_cross, List.getElem?_eq_getElem hj]

/-- Witness for the amended C1 at concrete inputs: a wrapped same-container
move with the decrement, an unwrapped one without it, and a cross-container
drop at the raw index. -/
theorem same_container_decrement_requires_wrapped_source_witness :
    drop_commit_same [itA, itB] 0 true 0 1 false = jsInsert [itB] 0 itA
      ∧ drop_commit_same [itA, itB] 0 false 0 1 false = jsInsert [itB] 1 itA
      ∧ drop_commit_cross [itA] [itB] 0 1 false = ([], jsInsert [itB] 1 itA) := by
  have ht := same_container_decrement_requires_wrapped_source [itA, itB] [itA] [itB]
    0 0 1 0 1 true (by decide) (by decide)
  have hf := same_container_decrement_requires_wrapped_source [itA, itB] [itA] [itB]
    0 0 1 0 1 false (by decide) (by decide)
  exact ⟨by simpa using ht.1 rfl (by decide), by simpa using hf.2.1 rfl,
    by simpa using ht.2.2.2⟩

/-- C2: in the row holding items A B C D in order, grabbing A (row position 0)
and dropping it while hovering item D yields the final order B C D A and not
B C A D.  In the source the hovered index recorded for D is its position in
the queried node list (6, because every item contributes its container and its
image); the same-row rule decrements it to 5, and insertion before the
undefined child 5 of the three remaining items appends A at the end. -/
theorem same_row_forward_move_final_order :
    drop_within_row [itA, itB, itC, itD] 0 3 = [itB, itC, itD, itA]
      ∧ drop_within_row [itA, itB, itC, itD] 0 3 ≠ [itB, itC, itA, itD] := by
  constructor
  · rfl
  · decide

/-!
Serializer and deserializer: save_tierlist and load_tierlist of the browser
script, plus the validation made by loadJsonFile of the Node utilities and the
import-input handler of the page.

The wire format is modelled by SerDoc below.  Notes on the DOM reading made
by save_tierlist:
- the row color written by save_tierlist is the rendered header background
  converted back to a hex string (rgb_to_hex on the parsed rgb components);
  since load_tierlist stores the hex string of the file verbatim into that
  background, the composition is the identity on the stored color, and the
  color field is carried verbatim here;
- inside a row, save_tierlist pushes one object entry per item container; its
  fallback that emits bare image sources fires only when the row produced no
  object entry at all, and every item built by create_item_with_src_and_name
  (used by the loader, the file importer and the paste handler alike) is an
  item container, so that fallback never runs for a document of this model and
  is not represented;
- for the pool, however, save_tierlist iterates over the query
  .images .item-container, .images img.draggable, and every pool item matches
  twice, in document order: its div.item-container, then the img.draggable
  inside it.  The forEach therefore pushes, per pool item, first the object
  entry with the trimmed label and then the legacy bare string holding the
  image source alone.  serialize_pool_item below is that pair.
-/

/-- One entry of an imgs or untiered array in the JSON wire format: the
current object form with src and an optional name, or the legacy bare string. -/
inductive ItemEntry where
  | str (s : String)
  | obj (src : String) (name : Option String)
deriving DecidableEq, Repr

/-- A serialized row: name, color, and the optional imgs array (load_tierlist
reads ser_row.imgs with a nullish fallback to the empty array). -/
structure SerRow where
  name : String
  color : String
  imgs : Option (List ItemEntry)
deriving DecidableEq, Repr

/-- A serialized document.  The rows field is optional so that an input whose
root lacks the rows array can be represented; the untiered key is optional in
the documented schema and is omitted by save_tierlist when the pool is empty. -/
structure SerDoc where
  title : String
  rows : Option (List SerRow)
  untiered : Option (List ItemEntry)
deriving DecidableEq, Repr

/-- Row and title names are cut to MAX_NAME_LEN characters on export. -/
def MAX_NAME_LEN : Nat := 200

/-- One item as written by save_tierlist: the object form, with the label text
trimmed. -/
def serialize_item (it : Item) : ItemEntry := .obj it.src (some (jsTrim it.name))

/-- One row as written by save_tierlist: the header label cut to MAX_NAME_LEN,
the header color, and the items in order. -/
def serialize_row (r : Row) : SerRow :=
  { name := substr0 r.name MAX_NAME_LEN
    color := r.color
    imgs := some (r.imgs.map serialize_item) }

/-- The two entries emitted for one pool item: the item container matched by
the query pushes the object form with the trimmed label, and the draggable
image inside it, matched by the same query, then pushes the bare image source
as a legacy string entry. -/
def serialize_pool_item (it : Item) : List ItemEntry :=
  [serialize_item it, .str it.src]

/-- save_tierlist: serializes the document; the untiered key is present only
when the pool is nonempty, and each pool item contributes its two entries in
document order. -/
def save_tierlist (d : Document) : SerDoc :=
  { title := d.title
    rows := some (d.rows.map serialize_row)
    untiered := if d.untiered.isEmpty then none
                else some ((d.untiered.map serialize_pool_item).flatten) }

/-- The per-entry branch of load_tierlist: a bare string s becomes an item
with source s and empty name; an object is accepted when its src field is
truthy (a nonempty string), with a falsy or missing name read as the empty
string; anything else is skipped. -/
def parse_item_entry : ItemEntry → Option Item
  | .str s => some { src := s, name := "" }
  | .obj src name =>
      if src = "" then none
      else some { src := src, name := name.getD "" }

/-- One row as read by load_tierlist: add_row with the serialized name, then
the accepted items in order; the color of the file is stored verbatim. -/
def load_row (sr : SerRow) : Row :=
  { name := sr.name
    color := sr.color
    imgs := (sr.imgs.getD []).filterMap parse_item_entry }

/-- load_tierlist: a missing rows array iterates over nothing (the JS for-in
loop over undefined), and a missing untiered key loads an empty pool. -/
def load_tierlist (sd : SerDoc) : Document :=
  { title := sd.title
    rows := (sd.rows.getD []).map load_row
    untiered := (sd.untiered.getD []).filterMap parse_item_entry }

/-- The import-input handler of the page: the parsed JSON is rejected only
when it is falsy (the alert path, keeping the prior document); any truthy
parse result hard-resets the list and loads the new document in place of the
prior one. -/
def import_input_handler (prev : Document) (parsed : Option SerDoc) : Document :=
  match parsed with
  | none => prev
  | some sd => load_tierlist sd

/-- The structural validation of loadJsonFile in the two Node utilities: the
promise is rejected when the rows field is not an array.  (The further checks,
root not an object and untiered present but not an array, concern shapes that
the typed wire model cannot hold.) -/
def loadJsonFile_check (sd : SerDoc) : Except String SerDoc :=
  match sd.rows with
  | none => .error "Invalid JSON: \"rows\" must be an array"
  | some _ => .ok sd

/-- An item with its display name trimmed, as serialization rewrites it. -/
def trim_item (it : Item) : Item := { it with name := jsTrim it.name }

/-- A row with every item name trimmed. -/
def trim_row_items (r : Row) : Row := { r with imgs := r.imgs.map trim_item }

/-- A document with every item name trimmed (rows and untiered pool). -/
def trim_doc (d : Document) : Document :=
  { d with rows := d.rows.map trim_row_items, untiered := d.untiered.map trim_item }

/-- A document is round-trip safe when every item source is a nonempty string
and every row name fits in MAX_NAME_LEN characters. -/
def roundtrip_safe (d : Document) : Prop :=
  (∀ r ∈ d.rows, r.name.data.length ≤ MAX_NAME_LEN ∧ ∀ it ∈ r.imgs, it.src ≠ "")
    ∧ ∀ it ∈ d.untiered, it.src ≠ ""

lemma parse_serialize_item (it : Item) (h : it.src ≠ "") :
    parse_item_entry (serialize_item it) = some (trim_item it) := by
  simp [parse_item_entry, serialize_item, trim_item, h]

lemma filterMap_parse_serialize (l : List Item) (h : ∀ it ∈ l, it.src ≠ "") :
    (l.map serialize_item).filterMap parse_item_entry = l.map trim_item := by
  induction l with
  | nil => rfl
  | cons a l ih =>
      have ha : a.src ≠ "" := h a (by simp)
      simp [List.filterMap_cons, parse_serialize_item a ha,
        ih (fun it hit => h it (by simp [hit]))]

lemma substr0_of_le (s : String) (n : Nat) (h : s.data.length ≤ n) :
    substr0 s n = s := by
  cases s with
  | mk data => simp [substr0, List.take_of_length_le h]

lemma load_save_row (r : Row) (h1 : r.name.data.length ≤ MAX_NAME_LEN)
    (h2 : ∀ it ∈ r.imgs, it.src ≠ "") :
    load_row (serialize_row r) = trim_row_items r := by
  simp [load_row, serialize_row, trim_row_items, substr0_of_le r.name MAX_NAME_LEN h1,
    filterMap_parse_serialize r.imgs h2]

/-- What one pool item becomes after a save and a load: the trimmed item read
from the object entry, then the nameless item read from the bare-string copy
that save_tierlist emits for the draggable image inside the container. -/
def dup_pool_item (it : Item) : List Item :=
  [trim_item it, { src := it.src, name := "" }]

/-- The document produced by loading a saved document: title kept, every row
item name trimmed, and every pool item followed by its nameless bare-string
duplicate. -/
def round_trip_doc (d : Document) : Document :=
  { title := d.title
    rows := d.rows.map trim_row_items
    untiered := (d.untiered.map dup_pool_item).flatten }

lemma filterMap_parse_pool (l : List Item) (h : ∀ it ∈ l, it.src ≠ "") :
    ((l.map serialize_pool_item).flatten).filterMap parse_item_entry
      = (l.map dup_pool_item).flatten := by
  induction l with
  | nil => rfl
  | cons a l ih =>
      have ha : a.src ≠ "" := h a (by simp)
      simp only [List.map_cons, List.flatten_cons, List.filterMap_append,
        ih (fun it hit => h it (by simp [hit]))]
      congr 1
      simp [serialize_pool_item, serialize_item, parse_item_entry, ha,
        dup_pool_item, trim_item]

/-- Round trip: for a round-trip safe document, loading the serialized form
gives the document with every row item name trimmed and every pool item
duplicated by its bare-string copy. -/
lemma load_save_eq (d : Document) (h : roundtrip_safe d) :
    load_tierlist (save_tierlist d) = round_trip_doc d := by
  obtain ⟨hrows, hunt⟩ := h
  have rows_eq : (d.rows.map serialize_row).map load_row = d.rows.map trim_row_items := by
    rw [List.map_map]
    exact List.map_congr_left fun r hr =>
      load_save_row r (hrows r hr).1 (hrows r hr).2
  have unt_eq : ((if d.untiered.isEmpty then none
      else some ((d.untiered.map serialize_pool_item).flatten)).getD
        []).filterMap parse_item_entry
      = (d.untiered.map dup_pool_item).flatten := by
    by_cases he : d.untiered.isEmpty
    · have : d.untiered = [] := List.isEmpty_iff.mp he
      simp [he, this]
    · simp only [he, if_false, Option.getD_some]
      exact filterMap_parse_pool d.untiered hunt
  simp only [List.isEmpty_iff] at unt_eq
  simp [load_tierlist, save_tierlist, round_trip_doc, rows_eq, unt_eq]

lemma trim_doc_eq_self (d : Document)
    (h1 : ∀ r ∈ d.rows, ∀ it ∈ r.imgs, jsTrim it.name = it.name)
    (h2 : ∀ it ∈ d.untiered, jsTrim it.name = it.name) :
    trim_doc d = d := by
  have rows_eq : d.rows.map trim_row_items = d.rows := by
    rw [show d.rows = d.rows.map id by simp]
    rw [List.map_map]
    refine List.map_congr_left fun r hr => ?_
    have : r.imgs.map trim_item = r.imgs := by
      rw [show r.imgs = r.imgs.map id by simp]
      rw [List.map_map]
      refine List.map_congr_left fun it hit => ?_
      simp [trim_item, h1 r (by simpa using hr) it (by simpa using hit)]
    simp [trim_row_items, this]
  have unt_eq : d.untiered.map trim_item = d.untiered := by
    rw [show d.untiered = d.untiered.map id by simp]
    rw [List.map_map]
    refine List.map_congr_left fun it hit => ?_
    simp [trim_item, h2 it (by simpa using hit)]
  simp [trim_doc, rows_eq, unt_eq]

/-- A document whose only item carries surrounding whitespace in its name. -/
def padded_doc_c3 : Document := ⟨"t", [], [⟨"data:image", " B "⟩]⟩

/-- C3 counterexample: serializing and deserializing is not the identity on
every document of current-format items; the padded untiered item comes back
with its name trimmed and followed by a nameless bare-string duplicate. -/
theorem roundtrip_not_verbatim_for_padded_name :
    load_tierlist (save_tierlist padded_doc_c3) ≠ padded_doc_c3 := by
  decide

/-- C3 amended: deserializing the serialized form is the identity exactly on
the well-behaved documents with an empty untiered pool: every item source
nonempty, every item name free of leading and trailing whitespace, every row
name at most MAX_NAME_LEN characters, and no untiered item.  A nonempty pool
never round-trips: each pool item is written twice (its object entry and a
legacy bare-string copy of its source), so it comes back followed by a
nameless duplicate. -/
theorem roundtrip_for_normalized_documents (d : Document)
    (hsafe : roundtrip_safe d)
    (h1 : ∀ r ∈ d.rows, ∀ it ∈ r.imgs, jsTrim it.name = it.name)
    (hpool : d.untiered = []) :
    load_tierlist (save_tierlist d) = d := by
  rw [load_save_eq d hsafe]
  have : round_trip_doc d = trim_doc d := by
    simp [round_trip_doc, trim_doc, hpool]
  rw [this]
  exact trim_doc_eq_self d h1 (by simp [hpool])

/-- Witness for the amended C3 on a concrete document with one row, one tiered
item and an empty pool. -/
theorem roundtrip_for_normalized_documents_witness :
    load_tierlist (save_tierlist ⟨"t", [⟨"S", "#ff6666", [⟨"data:a", "A"⟩]⟩], []⟩)
      = ⟨"t", [⟨"S", "#ff6666", [⟨"data:a", "A"⟩]⟩], []⟩ := by
  exact roundtrip_for_normalized_documents _
    (by constructor
        · intro r hr
          refine ⟨by simp at hr; simp [hr, MAX_NAME_LEN], ?_⟩
          intro it hit
          simp at hr
          subst hr
          simp at hit
          simp [hit]
        · intro it hit
          simp at hit)
    (by intro r hr it hit
        simp at hr
        subst hr
        simp at hit
        simp [hit]
        decide)
    rfl

/-- Predicate: the entry is in the current object form. -/
def entry_is_obj : ItemEntry → Bool
  | .obj _ _ => true
  | .str _ => false

/-- Every item entry of the serialized document is in the object form. -/
def entries_all_obj (sd : SerDoc) : Prop :=
  (∀ r ∈ sd.rows.getD [], ∀ e ∈ r.imgs.getD [], entry_is_obj e = true)
    ∧ ∀ e ∈ sd.untiered.getD [], entry_is_obj e = true

/-- Every item entry of the rows of the serialized document is in the object
form (the untiered pool is not constrained). -/
def rows_entries_all_obj (sd : SerDoc) : Prop :=
  ∀ r ∈ sd.rows.getD [], ∀ e ∈ r.imgs.getD [], entry_is_obj e = true

/-- C4 counterexample: re-serialization does emit the bare string again.  A
document loaded from a single legacy untiered entry serializes back with that
entry twice, the second one as the legacy bare string (the pool query of
save_tierlist matches the item container and its inner image), so the
serialized document is not all in the object form. -/
theorem legacy_pool_entry_reserialized_as_bare_string :
    (save_tierlist (load_tierlist ⟨"t", some [], some [.str "data:x"]⟩)).untiered
        = some [.obj "data:x" (some ""), .str "data:x"]
      ∧ ¬ entries_all_obj (save_tierlist (load_tierlist
          ⟨"t", some [], some [.str "data:x"]⟩)) := by
  constructor
  · rfl
  · intro hcontra
    have h2 := hcontra.2 (ItemEntry.str "data:x") (by decide)
    exact absurd h2 (by decide)

/-- C4 amended: a legacy bare string s deserializes to the item with source s
and empty name (for every s; for nonempty s the object form with source s and
empty name deserializes to the same item, while an object with empty source is
skipped).  Re-serializing a deserialized document emits only object-form
entries inside rows, a legacy row entry coming back as the object with empty
name; but every untiered item is emitted twice, as the object form with empty
name followed by a legacy bare-string copy of its source, so for pool items
the bare string does appear again. -/
theorem legacy_item_read_compat :
    (∀ s : String, parse_item_entry (.str s) = some { src := s, name := "" })
    ∧ (∀ s : String, s ≠ "" →
        parse_item_entry (.obj s (some "")) = parse_item_entry (.str s))
    ∧ (∀ sd : SerDoc, rows_entries_all_obj (save_tierlist (load_tierlist sd)))
    ∧ (∀ s title rname color : String,
        save_tierlist (load_tierlist ⟨title, some [⟨rname, color, some [.str s]⟩], none⟩)
          = ⟨title, some [⟨substr0 rname MAX_NAME_LEN, color,
              some [.obj s (some "")]⟩], none⟩)
    ∧ (∀ s title : String,
        (save_tierlist (load_tierlist ⟨title, some [], some [.str s]⟩)).untiered
          = some [.obj s (some ""), .str s]) := by
  have htrim : jsTrim "" = "" := rfl
  refine ⟨fun s => rfl, fun s hs => by simp [parse_item_entry, hs], fun sd => ?_, ?_, ?_⟩
  · intro r hr e he
    simp only [save_tierlist, Option.getD_some] at hr
    obtain ⟨r0, _, rfl⟩ := List.mem_map.mp hr
    simp only [serialize_row, Option.getD_some] at he
    obtain ⟨it, _, rfl⟩ := List.mem_map.mp he
    rfl
  · intro s title rname color
    simp [save_tierlist, load_tierlist, load_row, parse_item_entry, serialize_row,
      serialize_item, jsTrim]
  · intro s title
    simp [save_tierlist, load_tierlist, parse_item_entry, serialize_pool_item,
      serialize_item, htrim]

/-- Witness for the amended C4: the object and bare forms agree at a concrete
nonempty source, and the concrete legacy pool entry comes back doubled. -/
theorem legacy_item_read_compat_witness :
    parse_item_entry (.obj "data:y" (some "")) = parse_item_entry (.str "data:y")
      ∧ (save_tierlist (load_tierlist ⟨"u", some [], some [.str "data:y"]⟩)).untiered
          = some [.obj "data:y" (some ""), .str "data:y"] :=
  ⟨legacy_item_read_compat.2.1 "data:y" (by decide),
   legacy_item_read_compat.2.2.2.2 "data:y" "u"⟩

/-- The document loaded before the malformed import of the C5 scenario. -/
def prior_doc_c5 : Document := ⟨"Old", [⟨"S", "#ff6666", [⟨"data:s", "X"⟩]⟩], []⟩

/-- The malformed input of the C5 scenario: a root with a title and no rows. -/
def bad_input_c5 : SerDoc := ⟨"x", none, none⟩

/-- C5 counterexample: in the browser, importing the parsed value of the
object with title x and no rows array does not fail; the handler hard-resets
the list and loads an empty document titled x, so the previously loaded
document is replaced, not preserved. -/
theorem import_missing_rows_replaces_document :
    import_input_handler prior_doc_c5 (some bad_input_c5) = ⟨"x", [], []⟩
      ∧ import_input_handler prior_doc_c5 (some bad_input_c5) ≠ prior_doc_c5 := by
  constructor
  · rfl
  · decide

/-- C5 amended: the structural rejection of an input without a rows array is
made by loadJsonFile of the Node utilities, which rejects it with the error
message about rows and leaves the file untouched; the browser import handler
does not reject it, clearing the prior document and loading a document with
the given title and no rows. -/
theorem missing_rows_rejected_by_util_loader :
    loadJsonFile_check bad_input_c5 = .error "Invalid JSON: \"rows\" must be an array"
      ∧ import_input_handler prior_doc_c5 (some bad_input_c5) = ⟨"x", [], []⟩ :=
  ⟨rfl, rfl⟩

/-- A document whose only item name carries surrounding whitespace, for C10. -/
def padded_doc_c10 : Document :=
  ⟨"t", [⟨"S", "#ff6666", [⟨"data:r", " R "⟩]⟩], [⟨"data:u", " U "⟩]⟩

/-- C10: the name emitted for an item, in a row or in the untiered pool, is
always the display name trimmed of surrounding whitespace (the extra
bare-string entry that the pool query produces holds no name at all);
consequently a round-trip safe document comes back as round_trip_doc, the
padded document comes back holding its items with the trimmed names R and U
(the pool item followed by its nameless bare-string duplicate), and so does
not round-trip verbatim. -/
theorem serialization_trims_item_names :
    (∀ it : Item, serialize_item it = .obj it.src (some (jsTrim it.name)))
    ∧ (∀ it : Item,
        serialize_pool_item it = [.obj it.src (some (jsTrim it.name)), .str it.src])
    ∧ (∀ d : Document, roundtrip_safe d →
        load_tierlist (save_tierlist d) = round_trip_doc d)
    ∧ load_tierlist (save_tierlist padded_doc_c10)
        = ⟨"t", [⟨"S", "#ff6666", [⟨"data:r", "R"⟩]⟩],
            [⟨"data:u", "U"⟩, ⟨"data:u", ""⟩]⟩
    ∧ load_tierlist (save_tierlist padded_doc_c10) ≠ padded_doc_c10 := by
  refine ⟨fun it => rfl, fun it => rfl, load_save_eq, ?_, ?_⟩
  · decide
  · decide

/-- Witness for C10: the general part applied to the concrete padded
document, whose sources are nonempty and whose row name is short. -/
theorem serialization_trims_item_names_witness :
    load_tierlist (save_tierlist padded_doc_c10) = round_trip_doc padded_doc_c10 :=
  serialization_trims_item_names.2.2.1 padded_doc_c10
    (by constructor
        · intro r hr
          constructor
          · simp [padded_doc_c10] at hr
            simp [hr, MAX_NAME_LEN]
          · intro it hit
            simp [padded_doc_c10] at hr
            subst hr
            simp at hit
            simp [hit]
        · intro it hit
          simp [padded_doc_c10] at hit
          simp [hit])

/-!
Row operations: add_row, rm_row (reset_row followed by removal of the row
div), and the click handler of the per-row remove button.
-/

/-- reset_row applied inside rm_row: every span.item of the row is visited in
document order and its item container is appended to the untiered images, so
the row items land at the end of the pool in their original order. -/
def rm_row (d : Document) (idx : Nat) : Document :=
  match d.rows[idx]? with
  | none => d
  | some r => { d with rows := d.rows.eraseIdx idx, untiered := d.untiered ++ r.imgs }

/-- The default tier names of a fresh page. -/
def DEFAULT_TIERS : List String := ["S", "A", "B", "C", "D", "E", "F"]

/-- The repeating header palette, from S to F. -/
def TIER_COLORS : List String :=
  ["#ff6666", "#f0a731", "#f4d95b", "#66ff66", "#58c8f4", "#5b76f4", "#f45bed"]

/-- The document built by the load handler of a fresh page: one empty row per
default tier, colored by position from the palette, and an empty pool.  The
page title text is not part of the script and is taken as empty. -/
def default_doc : Document :=
  { title := ""
    rows := (List.range DEFAULT_TIERS.length).map (fun i =>
      { name := DEFAULT_TIERS.getD i ""
        color := TIER_COLORS.getD (i % TIER_COLORS.length) ""
        imgs := [] })
    untiered := [] }

/-- A user action on the row structure: the add-row-above and add-row-below
buttons (both insert an empty row at a computed index), and the remove-row
button with the outcome of its confirmation prompt (the prompt is skipped for
an empty row; a skipped or accepted prompt is a true flag here). -/
inductive RowOp where
  | add (idx : Nat) (name : String)
  | removeBtn (idx : Nat) (confirmed : Bool)

/-- add_row: builds an empty row and inserts it before the current child at
the index (appending when the index is at or past the end), with the palette
color of its position assigned by create_label_input. -/
def add_row (d : Document) (idx : Nat) (name : String) : Document :=
  let newRow : Row :=
    { name := name
      color := TIER_COLORS.getD (idx % TIER_COLORS.length) ""
      imgs := [] }
  { d with rows := jsInsert d.rows idx newRow }

/-- The click handler of the remove button: when fewer than two rows exist the
handler returns before doing anything; otherwise, upon confirmation, rm_row
runs on the index of the clicked row. -/
def apply_row_op (d : Document) : RowOp → Document
  | .add idx name => add_row d idx name
  | .removeBtn idx confirmed =>
      if d.rows.length < 2 then d
      else if confirmed then rm_row d idx else d

/-- All items of a document, rows first then the pool. -/
def all_items (d : Document) : List Item :=
  (d.rows.map Row.imgs).flatten ++ d.untiered

lemma jsInsert_length (l : List α) (n : Nat) (a : α) :
    (jsInsert l n a).length = l.length + 1 := by
  simp [jsInsert]
  omega

lemma rows_decompose (rows : List Row) (idx : Nat) (h : idx < rows.length) :
    rows = rows.take idx ++ rows.get ⟨idx, h⟩ :: rows.drop (idx + 1) := by
  conv_lhs => rw [← List.take_append_drop idx rows]
  congr 1
  rw [List.get_eq_getElem, List.getElem_cons_drop]

/-- C7: removing a row holding N items appends exactly those N items, in their
original order, to the end of the untiered pool, grows the pool by exactly N,
shrinks the row list by exactly one (erasing that row), and permutes no item
away: the multiset of all items is unchanged. -/
theorem rm_row_moves_items_to_untiered (d : Document) (idx : Nat)
    (h : idx < d.rows.length) :
    (rm_row d idx).untiered = d.untiered ++ (d.rows.get ⟨idx, h⟩).imgs
    ∧ (rm_row d idx).untiered.length
        = d.untiered.length + (d.rows.get ⟨idx, h⟩).imgs.length
    ∧ (rm_row d idx).rows = d.rows.eraseIdx idx
    ∧ (rm_row d idx).rows.length + 1 = d.rows.length
    ∧ List.Perm (all_items (rm_row d idx)) (all_items d) := by
  have hget : d.rows[idx]? = some (d.rows.get ⟨idx, h⟩) := by
    simp [List.getElem?_eq_getElem h]
  refine ⟨?_, ?_, ?_, ?_, ?_⟩
  · simp [rm_row, hget]
  · simp [rm_row, hget]
  · simp [rm_row, hget]
  · simp [rm_row, hget, List.length_eraseIdx, h]
    omega
  · simp only [all_items, rm_row, hget]
    rw [List.eraseIdx_eq_take_drop_succ]
    conv_rhs => rw [rows_decompose d.rows idx h]
    simp only [List.map_append, List.map_cons, List.flatten_append, List.flatten_cons,
      List.append_assoc]
    refine List.Perm.append_left _ ?_
    refine List.Perm.trans (List.perm_append_comm) ?_
    rw [List.append_assoc]
    refine List.Perm.trans (List.perm_append_comm) ?_
    rw [List.append_assoc]

/-- Witness for C7: removing the first of two rows on a concrete document. -/
theorem rm_row_moves_items_to_untiered_witness :
    (rm_row ⟨"t", [⟨"S", "#ff6666", [itA, itB]⟩, ⟨"A", "#f0a731", [itC]⟩], [itD]⟩ 0).untiered
      = [itD, itA, itB] := by
  have h := rm_row_moves_items_to_untiered
    ⟨"t", [⟨"S", "#ff6666", [itA, itB]⟩, ⟨"A", "#f0a731", [itC]⟩], [itD]⟩ 0 (by decide)
  simpa using h.1

lemma apply_row_op_length_lower (d : Document) (op : RowOp)
    (h : 1 ≤ d.rows.length) : 1 ≤ (apply_row_op d op).rows.length := by
  cases op with
  | add idx name => simp [apply_row_op, add_row, jsInsert_length]
  | removeBtn idx confirmed =>
      by_cases h2 : d.rows.length < 2
      · simp [apply_row_op, h2]
        omega
      · by_cases hc : confirmed
        · simp only [apply_row_op, h2, if_false, hc, if_true]
          cases hg : d.rows[idx]? with
          | none => simpa [rm_row, hg] using h
          | some r =>
              have hidx : idx < d.rows.length := by
                by_contra hbig
                rw [List.getElem?_eq_none (Nat.le_of_not_lt hbig)] at hg
                exact Option.noConfusion hg
              simp [rm_row, hg, List.length_eraseIdx, hidx]
              omega
        · simpa [apply_row_op, h2, hc] using h

lemma foldl_row_ops_lower (ops : List RowOp) :
    ∀ d : Document, 1 ≤ d.rows.length →
      1 ≤ (ops.foldl apply_row_op d).rows.length := by
  induction ops with
  | nil => intro d h; simpa using h
  | cons op ops ih =>
      intro d h
      exact ih (apply_row_op d op) (apply_row_op_length_lower d op h)

/-- C9: the remove button is a no-op when fewer than two rows exist, so every
sequence of add-row and remove-row actions starting from the default tierlist
leaves at least one row in the document. -/
theorem rows_lower_bound_invariant (ops : List RowOp) :
    1 ≤ (ops.foldl apply_row_op default_doc).rows.length := by
  refine foldl_row_ops_lower ops default_doc ?_
  simp [default_doc, DEFAULT_TIERS]

/-!
The duplicate-removal utility (util/remove_duplicates.js): name
normalization, the pairwise duplicate test, grouping by repeated scans until a
fixpoint (the connected components of the duplicate relation), selection of
the shortest-named entry, and removal of the other group members from the
JSON data.
-/

/-- normalizeName: lowercase then trim. -/
def normalizeName (name : String) : String := jsTrim (jsToLower name)

/-- isDuplicate: exact match of the normalized names, or strict containment of
the shorter normalized name in the longer. -/
def isDuplicate (name1 name2 : String) : Bool :=
  let norm1 := normalizeName name1
  let norm2 := normalizeName name2
  if norm1 = norm2 then true
  else if norm1.length < norm2.length then strIncludes norm2 norm1
  else if norm2.length < norm1.length then strIncludes norm1 norm2
  else false

/-- The location record attached by collectAllEntries, also serving as the
unique identifier string built by removeDuplicatesFromTierlist. -/
inductive Loc where
  | tier (rowIndex itemIndex : Nat)
  | untiered (itemIndex : Nat)
deriving DecidableEq, Repr

/-- One collected entry: the name of the item and where it sits. -/
structure Entry where
  name : String
  loc : Loc
deriving DecidableEq, Repr

/-- The per-entry filter of collectAllEntries: only an object entry with a
truthy (nonempty) name is collected. -/
def collect_entry_name : ItemEntry → Option String
  | .obj _ (some n) => if n = "" then none else some n
  | _ => none

/-- collectAllEntries: tier rows in order (each with its row and item index),
then the untiered array when present. -/
def collectAllEntries (sd : SerDoc) : List Entry :=
  (((sd.rows.getD []).enum.map (fun p =>
      (p.2.imgs.getD []).enum.filterMap (fun q =>
        (collect_entry_name q.2).map (fun n => ⟨n, Loc.tier p.1 q.1⟩)))).flatten)
    ++ ((sd.untiered.getD []).enum.filterMap (fun q =>
        (collect_entry_name q.2).map (fun n => ⟨n, Loc.untiered q.1⟩)))

/-- The inner test of the grouping loop: is the candidate a duplicate of some
entry already in the group. -/
def dupOfGroup (group : List Entry) (e : Entry) : Bool :=
  group.any (fun g => isDuplicate g.name e.name)

/-- One pass of the inner for-loop over all entry indices: every unprocessed
entry that is a duplicate of the group as grown so far is appended to the
group and marked processed; the flag records whether the pass added anything. -/
def scanPass (es : List (Nat × Entry)) (group : List Entry) (processed : List Nat) :
    List Entry × List Nat × Bool :=
  match es with
  | [] => (group, processed, false)
  | (j, e) :: rest =>
      if processed.contains j then scanPass rest group processed
      else if dupOfGroup group e then
        let r := scanPass rest (group ++ [e]) (processed ++ [j])
        (r.1, r.2.1, true)
      else scanPass rest group processed

/-- The while-foundNew loop: repeat passes until one adds nothing.  Every pass
that continues has marked at least one further index processed, so a fuel of
the entry count bounds the iteration of the source loop. -/
def growGroup (all : List (Nat × Entry)) : Nat → List Entry → List Nat →
    List Entry × List Nat
  | 0, group, processed => (group, processed)
  | fuel + 1, group, processed =>
      let r := scanPass all group processed
      if r.2.2 then growGroup all fuel r.1 r.2.1 else (r.1, r.2.1)

/-- The outer for-loop of findDuplicateGroups: each unprocessed entry seeds a
group which is grown to a fixpoint; only groups with more than one member are
kept. -/
def findGroupsAux (all : List (Nat × Entry)) :
    List (Nat × Entry) → List Nat → List (List Entry)
  | [], _ => []
  | (i, e) :: rest, processed =>
      if processed.contains i then findGroupsAux all rest processed
      else
        let r := growGroup all all.length [e] (processed ++ [i])
        if r.1.length > 1 then r.1 :: findGroupsAux all rest r.2
        else findGroupsAux all rest r.2

/-- findDuplicateGroups over the collected entries. -/
def findDuplicateGroups (es : List Entry) : List (List Entry) :=
  findGroupsAux es.enum es.enum []

/-- keepShortestEntry: the reduce keeping the entry with the strictly shorter
name, so the first of the minimal length wins.  The JS reduce is only ever
applied to groups of more than one entry; the empty case is given a dummy. -/
def keepShortestEntry : List Entry → Entry
  | [] => ⟨"", Loc.untiered 0⟩
  | e :: rest => rest.foldl (fun s c => if c.name.length < s.name.length then c else s) e

/-- The identifier set built by removeDuplicatesFromTierlist: every group
member other than the kept one. -/
def entries_to_remove (groups : List (List Entry)) : List Loc :=
  (groups.map (fun g =>
    let kept := keepShortestEntry g
    (g.filter (fun e => e != kept)).map Entry.loc)).flatten

/-- removeDuplicatesFromTierlist: splicing out, per row and in the untiered
array, exactly the item positions whose identifier is in the removal set (the
source iterates backwards so that the splices see the original indices; the
index-aware filter below is that same removal). -/
def removeDuplicatesFromTierlist (sd : SerDoc) (groups : List (List Entry)) : SerDoc :=
  let ids := entries_to_remove groups
  { sd with
    rows := sd.rows.map (fun rows =>
      rows.enum.map (fun p =>
        { p.2 with imgs := p.2.imgs.map (fun l =>
            l.enum.filterMap (fun q =>
              if ids.contains (Loc.tier p.1 q.1) then none else some q.2)) }))
    untiered := sd.untiered.map (fun l =>
      l.enum.filterMap (fun q =>
        if ids.contains (Loc.untiered q.1) then none else some q.2)) }

/-- The concrete input of the C6 scenario: three untiered entries. -/
def pizza_doc : SerDoc :=
  { title := "t"
    rows := some []
    untiered := some [.obj "a" (some "Pizza Hut"),
                      .obj "b" (some "Pizza Hut Branch 2"),
                      .obj "c" (some "KFC")] }

/-- C6: on the names Pizza Hut, Pizza Hut Branch 2 and KFC, the duplicate
finder builds exactly one group holding the first two names (case-insensitive
substring containment after normalization), KFC belongs to no group, the kept
entry of the group is the shortest-named Pizza Hut, and deduplication removes
exactly Pizza Hut Branch 2 from the file. -/
theorem pizza_hut_duplicate_grouping :
    ((findDuplicateGroups (collectAllEntries pizza_doc)).map (fun g => g.map Entry.name)
        = [["Pizza Hut", "Pizza Hut Branch 2"]])
    ∧ ((findDuplicateGroups (collectAllEntries pizza_doc)).map
          (fun g => (keepShortestEntry g).name) = ["Pizza Hut"])
    ∧ ((removeDuplicatesFromTierlist pizza_doc
          (findDuplicateGroups (collectAllEntries pizza_doc))).untiered
        = some [.obj "a" (some "Pizza Hut"), .obj "c" (some "KFC")]) := by
  refine ⟨?_, ?_, ?_⟩ <;> rfl

/-!
The main flow of the duplicate-removal utility, as the sequence of file
events it produces.  The relevant branch points of main are: the load of the
file (a missing file or a rejected parse exits before any write), the
emptiness of the duplicate group list, the skip selection leaving no group,
the approval prompt, the success of createBackup, and, when the backup fails,
the continue-without-backup prompt.
-/

/-- A file event of the utility run: the timestamped backup copy, or the
rewrite of the tierlist file. -/
inductive UtilEvent where
  | backupCreated
  | fileWritten
deriving DecidableEq, Repr

/-- The event trace of main, by its branch outcomes in source order. -/
def remove_duplicates_main (loadOk hasDuplicates anyGroupSelected approved
    backupOk continueWithoutBackup : Bool) : List UtilEvent :=
  if !loadOk then []
  else if !hasDuplicates then []
  else if !anyGroupSelected then []
  else if !approved then []
  else if backupOk then [.backupCreated, .fileWritten]
  else if continueWithoutBackup then [.fileWritten]
  else []

/-- C8 counterexample: a run in which createBackup fails and the user answers
yes to the continue-without-backup prompt reaches the file write with no
backup ever created, so the utility does not always back the file up before
overwriting it. -/
theorem write_without_backup_possible :
    UtilEvent.fileWritten ∈ remove_duplicates_main true true true true false true
      ∧ UtilEvent.backupCreated ∉ remove_duplicates_main true true true true false true := by
  decide

/-- C8 amended: every run reaching the write either created the backup first
(the trace is backup then write, whenever createBackup succeeded), or had the
backup creation fail and the user explicitly confirm continuing without one. -/
theorem backup_precedes_write_unless_user_overrides
    (loadOk hasDuplicates anyGroupSelected approved backupOk cont : Bool)
    (h : UtilEvent.fileWritten ∈ remove_duplicates_main loadOk hasDuplicates
      anyGroupSelected approved backupOk cont) :
    (backupOk = true
      ∧ remove_duplicates_main loadOk hasDuplicates anyGroupSelected approved backupOk cont
          = [.backupCreated, .fileWritten])
    ∨ (backupOk = false ∧ cont = true
      ∧ remove_duplicates_main loadOk hasDuplicates anyGroupSelected approved backupOk cont
          = [.fileWritten]) := by
  revert h
  cases loadOk <;> cases hasDuplicates <;> cases anyGroupSelected <;> cases approved
    <;> cases backupOk <;> cases cont <;> decide

/-- Witness for the amended C8: a fully approved run with a successful backup. -/
theorem backup_precedes_write_unless_user_overrides_witness :
    (true = true
      ∧ remove_duplicates_main true true true true true true
          = [.backupCreated, .fileWritten])
    ∨ (true = false ∧ true = true
      ∧ remove_duplicates_main true true true true true true = [.fileWritten]) :=
  backup_precedes_write_unless_user_overrides true true true true true true (by decide)

end Tierlist
